import Mathlib

/-!
Shallow embedding of the blog-api handlers (Go, gin + gorm + redis + elasticsearch)
from the repository suspiciously36/Golang-finaltest.

The embedding follows `handlers` (models.go, handler.go, post_handler.go):
  * `Post`, `ActivityLog`, `PostSearchResult` mirror the gorm/ES models;
  * the three backing stores are modelled as explicit state
    (`DBState` for PostgreSQL, a function `Nat → Option CacheEntry` for Redis,
    a list of search documents for the Elasticsearch "posts" index);
  * each fallible store call the Go code branches on is driven by an explicit
    failure flag, so transactional rollback behaviour is observable;
  * `strconv.ParseUint(idParam, 10, 32)` is modelled by `parseUint32`;
  * `strconv.Atoi` results are modelled by `AtoiResult` (error or an integer).

Timestamps are abstract `Nat` clock values passed in as `now` (gorm fills
CreatedAt/UpdatedAt; the raw `INSERT` in DeletePost leaves `logged_at` to the
column default CURRENT_TIMESTAMP).
-/

namespace Blog

/-- A row of the `posts` table (models.Post). -/
structure Post where
  id : Nat
  title : String
  content : String
  tags : List String
  createdAt : Nat
  updatedAt : Nat
deriving Repr, DecidableEq

/-- A row of the `activity_logs` table (models.ActivityLog); `postId` is the
nullable `post_id` column. -/
structure ActivityLog where
  id : Nat
  action : String
  postId : Option Nat
  loggedAt : Nat
deriving Repr, DecidableEq

/-- An Elasticsearch document of the `posts` index (models.PostSearchResult). -/
structure SearchDoc where
  id : Nat
  title : String
  content : String
  tags : List String
deriving Repr, DecidableEq

/-- The relational store: both tables plus the SERIAL counters. -/
structure DBState where
  posts : List Post
  logs : List ActivityLog
  nextPostId : Nat
  nextLogId : Nat
deriving Repr

/-- What a Redis value for key `post:<id>` deserializes to: a well-formed
serialized post, or bytes that `json.Unmarshal` rejects. -/
inductive CacheVal where
  | good (p : Post)
  | corrupt
deriving Repr, DecidableEq

/-- A cache entry together with its remaining TTL in seconds. -/
structure CacheEntry where
  val : CacheVal
  ttlSeconds : Nat
deriving Repr, DecidableEq

/-- The whole system state: PostgreSQL, Redis (keyed by post id), Elasticsearch. -/
structure SysState where
  db : DBState
  cache : Nat → Option CacheEntry
  es : List SearchDoc

/-- Responses a handler can produce (the JSON payload shapes used by the code). -/
structure Pagination where
  currentPage : Nat
  totalPages : Nat
  totalCount : Nat
  limit : Nat
  hasNext : Bool
  hasPrev : Bool
deriving Repr, DecidableEq

inductive HResult where
  | createdPost (p : Post)
  | okPost (p : Post)
  | okRelated (p : Post) (related : List Post)
  | okPosts (posts : List Post) (pg : Pagination)
  | okLogs (logs : List ActivityLog) (pg : Pagination)
  | okDeleted (id : Nat)
  | badRequest (msg : String)
  | notFound (msg : String)
  | serverError (msg : String)
deriving Repr, DecidableEq

/-! ### strconv modelling -/

/-- One character of a decimal numeral. -/
def isDecDigit (c : Char) : Bool :=
  ('0' ≤ c) && (c ≤ '9')

/-- Numeric value of a decimal digit character. -/
def digitVal (c : Char) : Nat :=
  c.toNat - '0'.toNat

/-- Value of a decimal numeral. -/
def natOfDigits (l : List Char) : Nat :=
  l.foldl (fun acc c => acc * 10 + digitVal c) 0

/-- `strconv.ParseUint(s, 10, 32)`: succeeds exactly on a non-empty string of
decimal digits whose value fits in 32 bits (no sign, no underscores in base 10). -/
def parseUint32 (s : String) : Option Nat :=
  let cs := s.data
  if cs.isEmpty then none
  else if cs.all isDecDigit then
    let n := natOfDigits cs
    if n < 2 ^ 32 then some n else none
  else none

/-- Result of `strconv.Atoi`: an error or some machine integer. -/
inductive AtoiResult where
  | err
  | ok (n : Int)
deriving Repr, DecidableEq

/-! ### Store primitives -/

/-- `DB.First(&post, id)`: the row of `posts` with primary key `id`. -/
def findPost (posts : List Post) (id : Nat) : Option Post :=
  posts.find? (fun p => p.id == id)

/-- Projection of a post into its search document (indexPostInES). -/
def toDoc (p : Post) : SearchDoc :=
  { id := p.id, title := p.title, content := p.content, tags := p.tags }

/-- ES index with an explicit document id: upsert under that id. -/
def esUpsert (es : List SearchDoc) (d : SearchDoc) : List SearchDoc :=
  if es.any (fun e => e.id == d.id) then
    es.map (fun e => if e.id == d.id then d else e)
  else
    es ++ [d]

/-- ES delete by document id (deletePostFromES). -/
def esDelete (es : List SearchDoc) (id : Nat) : List SearchDoc :=
  es.filter (fun e => e.id != id)

/-- Redis `DEL post:<id>`. -/
def cacheDel (c : Nat → Option CacheEntry) (id : Nat) : Nat → Option CacheEntry :=
  fun k => if k = id then none else c k

/-- Redis `SET post:<id> <bytes> EX ttl`. -/
def cacheSet (c : Nat → Option CacheEntry) (id : Nat) (e : CacheEntry) :
    Nat → Option CacheEntry :=
  fun k => if k = id then some e else c k

/-! ### GetPost (cache-aside read) -/

/-- The database leg of GetPost: fetch, 404 when absent, then best-effort cache
with a 5-minute (300 s) TTL. `failCacheSet` models a failing Redis SET, whose
error the Go code never inspects. -/
def getPostFromDB (failCacheSet : Bool) (id : Nat) (s : SysState) :
    HResult × SysState :=
  match findPost s.db.posts id with
  | none => (.notFound "Post not found", s)
  | some p =>
      ( .okPost p,
        if failCacheSet then s
        else { s with cache := cacheSet s.cache id ⟨.good p, 300⟩ } )

/-- Handler.GetPost after id parsing: Redis first; a hit that deserializes is
returned as-is; a miss, Redis error, or corrupt value falls through to the DB. -/
def getPostCore (failCacheSet : Bool) (id : Nat) (s : SysState) :
    HResult × SysState :=
  match s.cache id with
  | some entry =>
      match entry.val with
      | .good p => (.okPost p, s)
      | .corrupt => getPostFromDB failCacheSet id s
  | none => getPostFromDB failCacheSet id s

/-- Handler.GetPost: parse the `:id` path parameter, then the cache-aside read. -/
def getPost (failCacheSet : Bool) (idParam : String) (s : SysState) :
    HResult × SysState :=
  match parseUint32 idParam with
  | none => (.badRequest "Invalid post ID", s)
  | some id => getPostCore failCacheSet id s

/-! ### CreatePost -/

/-- models.CreatePostRequest after JSON binding: `Tags` may be nil or `[]`,
which the create handler treats identically, so a plain list suffices. -/
structure CreateReq where
  title : String
  content : String
  tags : List String
deriving Repr, DecidableEq

/-- Which steps of the create transaction fail (per the err checks in the code). -/
structure CreateFailure where
  failBegin : Bool
  failInsertPost : Bool
  failInsertLog : Bool
  failCommit : Bool
deriving Repr, DecidableEq

/-- Handler.CreatePost: gin `binding:"required"` rejects empty title/content;
then one transaction inserts the Post and its "new_post" ActivityLog, rolling
back on any failure; after commit the post is projected into Elasticsearch. -/
def createPost (now : Nat) (f : CreateFailure) (req : CreateReq) (s : SysState) :
    HResult × SysState :=
  if req.title = "" ∨ req.content = "" then
    (.badRequest "binding required field missing", s)
  else if f.failBegin then (.serverError "Failed to start transaction", s)
  else
    let post : Post :=
      { id := s.db.nextPostId, title := req.title, content := req.content,
        tags := req.tags, createdAt := now, updatedAt := now }
    if f.failInsertPost then (.serverError "Failed to create post", s)
    else
      let log : ActivityLog :=
        { id := s.db.nextLogId, action := "new_post",
          postId := some post.id, loggedAt := now }
      if f.failInsertLog then (.serverError "Failed to create activity log", s)
      else if f.failCommit then (.serverError "Failed to commit transaction", s)
      else
        ( .createdPost post,
          { db := { posts := s.db.posts ++ [post], logs := s.db.logs ++ [log],
                    nextPostId := s.db.nextPostId + 1,
                    nextLogId := s.db.nextLogId + 1 },
            cache := s.cache,
            es := esUpsert s.es (toDoc post) } )

/-! ### UpdatePost -/

/-- models.UpdatePostRequest after JSON binding: in Go `Tags []string` is nil
when the key is absent (or null) and a non-nil slice — possibly empty — when an
array was supplied, hence the `Option`. -/
structure UpdateReq where
  title : String
  content : String
  tags : Option (List String)
deriving Repr, DecidableEq

/-- Net effect of UpdatePost's conditional field mutations on the fetched row:
non-empty title/content overwrite, a non-nil tag slice replaces the tags
wholesale, and `Save` refreshes UpdatedAt. -/
def overlayPost (now : Nat) (req : UpdateReq) (p0 : Post) : Post :=
  { id := p0.id,
    title := if req.title = "" then p0.title else req.title,
    content := if req.content = "" then p0.content else req.content,
    tags := match req.tags with
            | none => p0.tags
            | some ts => ts,
    createdAt := p0.createdAt,
    updatedAt := now }

/-- Handler.UpdatePost after id parsing: fetch, overlay non-empty title/content
and any non-nil tag slice, `Save` (refreshing UpdatedAt), delete the cache key,
reindex in Elasticsearch. `failSave` models a failing `DB.Save`. -/
def updatePostCore (now : Nat) (failSave : Bool) (id : Nat) (req : UpdateReq)
    (s : SysState) : HResult × SysState :=
  match findPost s.db.posts id with
  | none => (.notFound "Post not found", s)
  | some p0 =>
      let p : Post := overlayPost now req p0
      if failSave then (.serverError "Failed to update post", s)
      else
        ( .okPost p,
          { db := { s.db with
                      posts := s.db.posts.map (fun q => if q.id == id then p else q) },
            cache := cacheDel s.cache id,
            es := esUpsert s.es (toDoc p) } )

/-- Handler.UpdatePost: parse the `:id` path parameter first. -/
def updatePost (now : Nat) (failSave : Bool) (idParam : String) (req : UpdateReq)
    (s : SysState) : HResult × SysState :=
  match parseUint32 idParam with
  | none => (.badRequest "Invalid post ID", s)
  | some id => updatePostCore now failSave id req s

/-! ### DeletePost -/

/-- Which steps of the delete transaction fail. -/
structure DeleteFailure where
  failBegin : Bool
  failDeleteLogs : Bool
  failDeletePost : Bool
  failInsertLog : Bool
  failCommit : Bool
deriving Repr, DecidableEq

/-- Handler.DeletePost after id parsing: one transaction fetches the post
(404 when absent), deletes the logs with `post_id = id`, deletes the post row,
and inserts a "delete_post" log with NULL post_id (logged_at filled by the
column default, here `now`); any failure rolls everything back. After commit
the cache key is deleted and the ES document removed. -/
def deletePostCore (now : Nat) (f : DeleteFailure) (id : Nat) (s : SysState) :
    HResult × SysState :=
  if f.failBegin then (.serverError "Failed to start transaction", s)
  else
    match findPost s.db.posts id with
    | none => (.notFound "Post not found", s)
    | some _ =>
        if f.failDeleteLogs then (.serverError "Failed to delete activity logs", s)
        else if f.failDeletePost then (.serverError "Failed to delete post", s)
        else if f.failInsertLog then (.serverError "Failed to create activity log", s)
        else if f.failCommit then (.serverError "Failed to commit transaction", s)
        else
          let delLog : ActivityLog :=
            { id := s.db.nextLogId, action := "delete_post",
              postId := none, loggedAt := now }
          ( .okDeleted id,
            { db := { posts := s.db.posts.filter (fun p => p.id != id),
                      logs := (s.db.logs.filter (fun l => l.postId != some id))
                                ++ [delLog],
                      nextPostId := s.db.nextPostId,
                      nextLogId := s.db.nextLogId + 1 },
              cache := cacheDel s.cache id,
              es := esDelete s.es id } )

/-- Handler.DeletePost: parse the `:id` path parameter first. -/
def deletePost (now : Nat) (f : DeleteFailure) (idParam : String) (s : SysState) :
    HResult × SysState :=
  match parseUint32 idParam with
  | none => (.badRequest "Invalid post ID", s)
  | some id => deletePostCore now f id s

/-! ### Related posts -/

/-- The bool query of findRelatedPosts: `should` one term query per tag of the
input post (minimum_should_match 1) and `must_not` a term query on its id —
a document matches iff it shares a tag and has a different id. -/
def docMatchesRelated (post : Post) (d : SearchDoc) : Bool :=
  (post.tags.any (fun t => d.tags.contains t)) && (d.id != post.id)

/-- Executing the related-posts search with `Size(5)`. -/
def searchRelated (es : List SearchDoc) (post : Post) : List SearchDoc :=
  (es.filter (docMatchesRelated post)).take 5

/-- `WHERE id IN postIDs` against the posts table keyed by primary key: each
distinct requested id contributes its row when present. -/
def fetchByIds (posts : List Post) (ids : List Nat) : List Post :=
  ids.dedup.filterMap (fun i => findPost posts i)

/-- Handler.findRelatedPosts: empty tag set short-circuits to `[]`; otherwise
search ES (a failure surfaces as an error), extract the hit ids, and when any
exist re-hydrate the rows from the database. -/
def findRelatedPosts (esFail : Bool) (s : SysState) (post : Post) :
    Except String (List Post) :=
  if post.tags.isEmpty then .ok []
  else if esFail then .error "elasticsearch search failed"
  else
    let postIDs := (searchRelated s.es post).map (fun d => d.id)
    if postIDs.isEmpty then .ok []
    else .ok (fetchByIds s.db.posts postIDs)

/-- Handler.GetPostWithRelated: parse id, fetch the main post, resolve related
posts (an ES failure becomes a 500), and return both. -/
def getPostWithRelated (esFail : Bool) (idParam : String) (s : SysState) :
    HResult × SysState :=
  match parseUint32 idParam with
  | none => (.badRequest "Invalid post ID", s)
  | some id =>
      match findPost s.db.posts id with
      | none => (.notFound "Post not found", s)
      | some post =>
          match findRelatedPosts esFail s post with
          | .error _ => (.serverError "Failed to find related posts", s)
          | .ok related => (.okRelated post related, s)

/-! ### Pagination (GetAllPosts, GetActivityLogs) -/

/-- Page normalization shared by both listings: parse failure or a value below
1 falls back to 1. -/
def normPage (r : AtoiResult) : Nat :=
  match r with
  | .err => 1
  | .ok n => if n < 1 then 1 else n.toNat

/-- Limit normalization: parse failure or a value outside `[1,100]` falls back
to the handler's default (10 for posts, 20 for activity logs). -/
def normLimit (deflt : Nat) (r : AtoiResult) : Nat :=
  match r with
  | .err => deflt
  | .ok n => if n < 1 || n > 100 then deflt else n.toNat

/-- `c.DefaultQuery("page", "1")` then `Atoi` then normalization: an absent
query parameter behaves like the parsed default string. -/
def parsePage (q : Option AtoiResult) : Nat :=
  normPage (q.getD (.ok 1))

/-- `c.DefaultQuery("limit", deflt)` then `Atoi` then normalization. -/
def parseLimit (deflt : Nat) (q : Option AtoiResult) : Nat :=
  normLimit deflt (q.getD (.ok (deflt : Int)))

/-- `ORDER BY created_at DESC`. -/
def sortPostsByCreatedDesc (posts : List Post) : List Post :=
  posts.insertionSort (fun a b => b.createdAt ≤ a.createdAt)

/-- `ORDER BY logged_at DESC`. -/
def sortLogsByLoggedDesc (logs : List ActivityLog) : List ActivityLog :=
  logs.insertionSort (fun a b => b.loggedAt ≤ a.loggedAt)

/-- Handler.GetAllPosts: normalize page/limit, count, fetch the ordered slice
via OFFSET/LIMIT, and compute the metadata with ceiling division. -/
def getAllPostsCore (pageQ limitQ : Option AtoiResult) (s : SysState) :
    HResult × SysState :=
  let page := parsePage pageQ
  let limit := parseLimit 10 limitQ
  let offset := (page - 1) * limit
  let total := s.db.posts.length
  let slice := ((sortPostsByCreatedDesc s.db.posts).drop offset).take limit
  let totalPages := (total + limit - 1) / limit
  ( .okPosts slice
      { currentPage := page, totalPages := totalPages, totalCount := total,
        limit := limit, hasNext := page < totalPages, hasPrev := 1 < page },
    s )

/-- Handler.GetActivityLogs: same pagination scheme with default limit 20. -/
def getActivityLogsCore (pageQ limitQ : Option AtoiResult) (s : SysState) :
    HResult × SysState :=
  let page := parsePage pageQ
  let limit := parseLimit 20 limitQ
  let offset := (page - 1) * limit
  let total := s.db.logs.length
  let slice := ((sortLogsByLoggedDesc s.db.logs).drop offset).take limit
  let totalPages := (total + limit - 1) / limit
  ( .okLogs slice
      { currentPage := page, totalPages := totalPages, totalCount := total,
        limit := limit, hasNext := page < totalPages, hasPrev := 1 < page },
    s )

/-! ### Derived predicates and shared helper lemmas -/

/-- Transactional pairing of posts with their "new_post" creation logs. -/
def newPostPairing (db : DBState) : Prop :=
  (∀ p ∈ db.posts, ∃ l ∈ db.logs, l.action = "new_post" ∧ l.postId = some p.id) ∧
  (∀ l ∈ db.logs, l.action = "new_post" → ∃ p ∈ db.posts, l.postId = some p.id)

/-- Some step of the create transaction fails. -/
def anyCreateFailure (f : CreateFailure) : Bool :=
  f.failBegin || f.failInsertPost || f.failInsertLog || f.failCommit

/-- Some step of the delete transaction fails. -/
def anyDeleteFailure (f : DeleteFailure) : Bool :=
  f.failBegin || f.failDeleteLogs || f.failDeletePost || f.failInsertLog || f.failCommit

theorem parsePage_pos (q : Option AtoiResult) : 1 ≤ parsePage q := by
  unfold parsePage normPage
  cases q with
  | none => decide
  | some r =>
      cases r with
      | err => decide
      | ok n =>
          simp only [Option.getD]
          split <;> omega

theorem parseLimit_pos (d : Nat) (q : Option AtoiResult) (hd : 1 ≤ d) :
    1 ≤ parseLimit d q := by
  unfold parseLimit normLimit
  cases q with
  | none => simpa using hd
  | some r =>
      cases r with
      | err => simpa using hd
      | ok n =>
          simp only [Option.getD]
          split
          · exact hd
          · rename_i hcond
            simp only [Bool.or_eq_true, decide_eq_true_eq, not_or] at hcond
            omega

theorem parseLimit_le_100 (d : Nat) (q : Option AtoiResult) (hd : d ≤ 100) :
    parseLimit d q ≤ 100 := by
  unfold parseLimit normLimit
  cases q with
  | none => simpa using hd
  | some r =>
      cases r with
      | err => simpa using hd
      | ok n =>
          simp only [Option.getD]
          split
          · exact hd
          · rename_i hcond
            simp only [Bool.or_eq_true, decide_eq_true_eq, not_or] at hcond
            omega

/-- Ceiling division recovers at least the numerator:
`total ≤ ⌈total / limit⌉ * limit`. -/
theorem total_le_ceil_mul (total limit : Nat) (h : 0 < limit) :
    total ≤ ((total + limit - 1) / limit) * limit := by
  have hd := Nat.div_add_mod (total + limit - 1) limit
  have hm : (total + limit - 1) % limit < limit := Nat.mod_lt _ h
  rw [Nat.mul_comm] at hd
  generalize hQ : ((total + limit - 1) / limit) * limit = Q at hd ⊢
  generalize hR : (total + limit - 1) % limit = R at hd hm
  omega

/-- Replacing the row with primary key `id` by a post `p` carrying that id makes
the point lookup return `p`, provided some row with that id existed. -/
theorem find?_map_update (posts : List Post) (id : Nat) (p : Post)
    (hp : (p.id == id) = true) :
    ∀ p0, posts.find? (fun q => q.id == id) = some p0 →
      (posts.map (fun q => if q.id == id then p else q)).find?
        (fun q => q.id == id) = some p := by
  induction posts with
  | nil => intro p0 h; simp at h
  | cons a l ih =>
      intro p0 h
      by_cases ha : (a.id == id) = true
      · simp only [List.map_cons, ha, if_true]
        exact List.find?_cons_of_pos (p := fun (q : Post) => q.id == id) _ hp
      · rw [List.find?_cons_of_neg (p := fun (q : Post) => q.id == id) _ ha] at h
        have ha' : ((a.id == id) = true) = False := eq_false ha
        simp only [List.map_cons, ha', if_false]
        rw [List.find?_cons_of_neg (p := fun (q : Post) => q.id == id) _ ha]
        exact ih p0 h

/-- Concrete system state used by the witness theorems. -/
def wPost : Post :=
  { id := 1, title := "A", content := "x", tags := ["go"], createdAt := 0, updatedAt := 0 }

def wState : SysState :=
  { db := { posts := [wPost], logs := [⟨1, "new_post", some 1, 0⟩],
            nextPostId := 2, nextLogId := 2 },
    cache := fun _ => none,
    es := [toDoc wPost] }

/-! ### Claim theorems -/

/-- C10: for every get, update, delete, or related-posts request whose id path
parameter is not a non-negative decimal integer representable in 32 bits, the
handler returns a bad-input error and the whole system state (relational store,
cache, search index) is returned untouched. -/
theorem invalid_id_rejected_without_side_effects
    (idParam : String) (hbad : parseUint32 idParam = none)
    (fs fsave : Bool) (nowU nowD : Nat) (req : UpdateReq) (f : DeleteFailure)
    (esFail : Bool) (s : SysState) :
    getPost fs idParam s = (.badRequest "Invalid post ID", s) ∧
    updatePost nowU fsave idParam req s = (.badRequest "Invalid post ID", s) ∧
    deletePost nowD f idParam s = (.badRequest "Invalid post ID", s) ∧
    getPostWithRelated esFail idParam s = (.badRequest "Invalid post ID", s) := by
  unfold getPost updatePost deletePost getPostWithRelated
  simp [hbad]

theorem invalid_id_rejected_without_side_effects_witness :
    getPost false "12a" wState = (.badRequest "Invalid post ID", wState) ∧
    updatePost 0 false "12a" ⟨"", "", none⟩ wState
      = (.badRequest "Invalid post ID", wState) ∧
    deletePost 0 ⟨false, false, false, false, false⟩ "12a" wState
      = (.badRequest "Invalid post ID", wState) ∧
    getPostWithRelated false "12a" wState
      = (.badRequest "Invalid post ID", wState) :=
  invalid_id_rejected_without_side_effects "12a" (by decide)
    false false 0 0 ⟨"", "", none⟩ ⟨false, false, false, false, false⟩ false wState

/-- C9: deleting an id that is absent from the posts table (in particular an id
already deleted) returns the not-found error and leaves the entire state —
relational store, cache and search index — unchanged. -/
theorem delete_missing_id_not_found (nowD : Nat) (f : DeleteFailure) (id : Nat)
    (s : SysState) (hbegin : f.failBegin = false)
    (habsent : findPost s.db.posts id = none) :
    deletePostCore nowD f id s = (.notFound "Post not found", s) := by
  unfold deletePostCore
  rw [hbegin]
  simp [habsent]

theorem delete_missing_id_not_found_witness :
    deletePostCore 9 ⟨false, false, false, false, false⟩ 1
        (deletePostCore 5 ⟨false, false, false, false, false⟩ 1 wState).2
      = (.notFound "Post not found",
         (deletePostCore 5 ⟨false, false, false, false, false⟩ 1 wState).2) :=
  delete_missing_id_not_found 9 ⟨false, false, false, false, false⟩ 1
    (deletePostCore 5 ⟨false, false, false, false, false⟩ 1 wState).2 rfl rfl

/-- C4: the cache-aside read. A cache hit that deserializes is returned with no
state change (independent of the relational store); on a miss or corrupt entry
the post is read from the posts table — absent gives the not-found error,
present returns the row and best-effort caches it with a 300-second (5-minute)
TTL, a failing cache write changing nothing and never surfacing as an error. -/
theorem get_post_cache_aside (fs : Bool) (id : Nat) (s : SysState) :
    (∀ p t, s.cache id = some ⟨.good p, t⟩ → getPostCore fs id s = (.okPost p, s)) ∧
    ((s.cache id = none ∨ ∃ t, s.cache id = some ⟨.corrupt, t⟩) →
      ((findPost s.db.posts id = none →
          getPostCore fs id s = (.notFound "Post not found", s)) ∧
       (∀ q, findPost s.db.posts id = some q →
          (getPostCore fs id s).1 = .okPost q ∧
          (getPostCore fs id s).2.db = s.db ∧
          (getPostCore fs id s).2.es = s.es ∧
          (fs = false →
            (getPostCore fs id s).2.cache = cacheSet s.cache id ⟨.good q, 300⟩) ∧
          (fs = true → (getPostCore fs id s).2 = s)))) := by
  constructor
  · intro p t h
    simp [getPostCore, h]
  · intro hmiss
    have hdb : getPostCore fs id s = getPostFromDB fs id s := by
      rcases hmiss with h | ⟨t, h⟩ <;> simp [getPostCore, h]
    constructor
    · intro habs
      rw [hdb]
      simp [getPostFromDB, habs]
    · intro q hq
      rw [hdb]
      unfold getPostFromDB
      rw [hq]
      cases fs <;> simp

theorem get_post_cache_aside_witness :
    getPostCore true 1
        { wState with cache := fun k => if k = 1 then some ⟨.good wPost, 120⟩ else none }
      = (.okPost wPost,
         { wState with cache := fun k => if k = 1 then some ⟨.good wPost, 120⟩ else none }) :=
  (get_post_cache_aside true 1
      { wState with cache := fun k => if k = 1 then some ⟨.good wPost, 120⟩ else none }).1
    wPost 120 rfl

/-- C2: a point read executed immediately after a successful update of the same
id returns exactly the updated post, for every prior cache content — the update
invalidates the cached snapshot, so the read falls through to the relational
store and finds the freshly saved row. -/
theorem read_after_update_returns_written (nowU : Nat) (fsave fs : Bool)
    (id : Nat) (req : UpdateReq) (s : SysState) (p : Post) (s1 : SysState)
    (h : updatePostCore nowU fsave id req s = (.okPost p, s1)) :
    (getPostCore fs id s1).1 = .okPost p := by
  unfold updatePostCore at h
  cases hf : findPost s.db.posts id with
  | none =>
      rw [hf] at h
      simp at h
  | some p0 =>
      rw [hf] at h
      cases fsave with
      | true => simp at h
      | false =>
          simp only [Bool.false_eq_true, if_false, Prod.mk.injEq,
            HResult.okPost.injEq] at h
          obtain ⟨h1, h2⟩ := h
          subst h1
          have hpid : ((overlayPost nowU req p0).id == id) = true := by
            have hb : (p0.id == id) = true :=
              List.find?_some (p := fun (q : Post) => q.id == id) hf
            simpa [overlayPost] using hb
          have hcache : s1.cache id = none := by
            rw [← h2]
            simp [cacheDel]
          have hfind : findPost s1.db.posts id = some (overlayPost nowU req p0) := by
            rw [← h2]
            exact find?_map_update s.db.posts id (overlayPost nowU req p0) hpid p0 hf
          unfold getPostCore
          rw [hcache]
          unfold getPostFromDB
          rw [hfind]

/-- C3 counterexample: at a concrete state whose post 1 carries tags `["go"]`,
an update request that provides the tag sequence as an explicit empty sequence
succeeds and stores the post with tags `[]` — the stored tag sequence is NOT
left unchanged, refuting the claim that explicit-empty behaves like absent. -/
theorem explicit_empty_tags_not_unchanged_cex :
    (wState.db.posts.map Post.tags = [["go"]]) ∧
    ((updatePostCore 5 false 1 ⟨"", "", some []⟩ wState).1
      = .okPost { id := 1, title := "A", content := "x", tags := [],
                  createdAt := 0, updatedAt := 5 }) ∧
    ((updatePostCore 5 false 1 ⟨"", "", some []⟩ wState).2.db.posts.map Post.tags
      = [[]]) := by
  refine ⟨rfl, rfl, rfl⟩

/-- C3 amended: whenever the update request provides a tag slice at all — even
an explicit empty one — the stored tags are replaced wholesale by that slice
(explicit empty clears the tags); only an absent (nil) tag slice leaves the
tags unchanged. Absent or empty title and content leave those fields unchanged. -/
theorem update_tags_replaced_when_provided (nowU : Nat) (id : Nat)
    (req : UpdateReq) (s : SysState) (p0 : Post)
    (hf : findPost s.db.posts id = some p0) :
    (updatePostCore nowU false id req s).1 = .okPost (overlayPost nowU req p0) ∧
    (overlayPost nowU req p0).tags
      = (match req.tags with | none => p0.tags | some ts => ts) ∧
    (req.tags = some [] → (overlayPost nowU req p0).tags = []) ∧
    (req.tags = none → (overlayPost nowU req p0).tags = p0.tags) ∧
    (req.title = "" → (overlayPost nowU req p0).title = p0.title) ∧
    (req.content = "" → (overlayPost nowU req p0).content = p0.content) := by
  refine ⟨?_, rfl, ?_, ?_, ?_, ?_⟩
  · unfold updatePostCore
    rw [hf]
    rfl
  · intro ht; simp [overlayPost, ht]
  · intro ht; simp [overlayPost, ht]
  · intro ht; simp [overlayPost, ht]
  · intro ht; simp [overlayPost, ht]

theorem update_tags_replaced_when_provided_witness :
    (updatePostCore 5 false 1 ⟨"", "", some ["x", "y"]⟩ wState).1
        = .okPost (overlayPost 5 ⟨"", "", some ["x", "y"]⟩ wPost) ∧
      (overlayPost 5 ⟨"", "", some ["x", "y"]⟩ wPost).tags = ["x", "y"] :=
  ⟨(update_tags_replaced_when_provided 5 1 ⟨"", "", some ["x", "y"]⟩ wState wPost rfl).1,
   (update_tags_replaced_when_provided 5 1 ⟨"", "", some ["x", "y"]⟩ wState wPost rfl).2.1⟩

/-- C6: for both paginated listings the response carries the normalized page
and limit; the page defaults to 1 and has floor 1, the limit defaults to 10
(posts) resp. 20 (activity logs), and the effective limit always lies in
`[1, 100]` — any requested size below 1 or above 100 is replaced by a value
inside that interval. -/
theorem pagination_defaults_and_clamping :
    (∀ s pq lq, ∃ posts pg, (getAllPostsCore pq lq s).1 = .okPosts posts pg ∧
      pg.currentPage = parsePage pq ∧ pg.limit = parseLimit 10 lq) ∧
    (∀ s pq lq, ∃ logs pg, (getActivityLogsCore pq lq s).1 = .okLogs logs pg ∧
      pg.currentPage = parsePage pq ∧ pg.limit = parseLimit 20 lq) ∧
    parsePage none = 1 ∧ parseLimit 10 none = 10 ∧ parseLimit 20 none = 20 ∧
    (∀ q, 1 ≤ parsePage q) ∧
    (∀ q, 1 ≤ parseLimit 10 q ∧ parseLimit 10 q ≤ 100) ∧
    (∀ q, 1 ≤ parseLimit 20 q ∧ parseLimit 20 q ≤ 100) := by
  refine ⟨?_, ?_, rfl, rfl, rfl, parsePage_pos, ?_, ?_⟩
  · intro s pq lq
    exact ⟨_, _, rfl, rfl, rfl⟩
  · intro s pq lq
    exact ⟨_, _, rfl, rfl, rfl⟩
  · intro q
    exact ⟨parseLimit_pos 10 q (by omega), parseLimit_le_100 10 q (by omega)⟩
  · intro q
    exact ⟨parseLimit_pos 20 q (by omega), parseLimit_le_100 20 q (by omega)⟩

/-- C7: for every post and every state of the search index and posts table, the
related-content result (when it succeeds) contains at most 5 entries and never
an entry whose id equals the queried post's own id. -/
theorem related_posts_capped_and_exclude_self (esFail : Bool) (s : SysState)
    (post : Post) (rel : List Post)
    (h : findRelatedPosts esFail s post = .ok rel) :
    rel.length ≤ 5 ∧ ∀ p ∈ rel, p.id ≠ post.id := by
  unfold findRelatedPosts at h
  by_cases h1 : post.tags.isEmpty
  · rw [if_pos h1] at h
    cases h
    simp
  · rw [if_neg h1] at h
    cases esFail with
    | true => simp at h
    | false =>
        simp only [Bool.false_eq_true, if_false] at h
        by_cases h2 :
            ((searchRelated s.es post).map (fun d => d.id)).isEmpty
        · rw [if_pos h2] at h
          cases h
          simp
        · rw [if_neg h2] at h
          cases h
          constructor
          · calc (fetchByIds s.db.posts
                    ((searchRelated s.es post).map (fun d => d.id))).length
                ≤ ((searchRelated s.es post).map (fun d => d.id)).dedup.length :=
                  List.length_filterMap_le _ _
              _ ≤ ((searchRelated s.es post).map (fun d => d.id)).length :=
                  (List.dedup_sublist _).length_le
              _ = (searchRelated s.es post).length := List.length_map _ _
              _ ≤ 5 := List.length_take_le _ _
          · intro p hp
            obtain ⟨i, hi, hfind⟩ := List.mem_filterMap.mp hp
            have hpid : p.id = i := by
              have := List.find?_some (p := fun (q : Post) => q.id == i) hfind
              simpa using this
            have hi' : i ∈ (searchRelated s.es post).map (fun d => d.id) :=
              List.mem_dedup.mp hi
            obtain ⟨d, hd, hdi⟩ := List.mem_map.mp hi'
            have hd' : d ∈ s.es.filter (docMatchesRelated post) :=
              List.mem_of_mem_take hd
            have hmatch : docMatchesRelated post d = true :=
              (List.mem_filter.mp hd').2
            have hne : d.id ≠ post.id := by
              simp only [docMatchesRelated, Bool.and_eq_true, bne_iff_ne,
                ne_eq] at hmatch
              exact hmatch.2
            rw [hpid, ← hdi]
            exact hne

theorem related_posts_capped_and_exclude_self_witness :
    (0 : Nat) ≤ 5 ∧ ∀ p ∈ ([] : List Post), p.id ≠ wPost.id := by
  have h := related_posts_capped_and_exclude_self false wState wPost [] rfl
  exact h

/-- Installing a freshly created post together with its "new_post" log keeps the
posts/creation-logs pairing intact. -/
theorem newPostPairing_insert (db : DBState) (p : Post) (l : ActivityLog)
    (hact : l.action = "new_post") (href : l.postId = some p.id)
    (h : newPostPairing db) :
    newPostPairing { posts := db.posts ++ [p], logs := db.logs ++ [l],
                     nextPostId := db.nextPostId + 1,
                     nextLogId := db.nextLogId + 1 } := by
  obtain ⟨hA, hB⟩ := h
  constructor
  · intro q hq
    rcases List.mem_append.mp hq with hq | hq
    · obtain ⟨m, hm, hm1, hm2⟩ := hA q hq
      exact ⟨m, List.mem_append_left _ hm, hm1, hm2⟩
    · have hq' : q = p := by simpa using hq
      subst hq'
      exact ⟨l, List.mem_append_right _ (by simp), hact, href⟩
  · intro m hm hact'
    rcases List.mem_append.mp hm with hm | hm
    · obtain ⟨q, hq, h2⟩ := hB m hm hact'
      exact ⟨q, List.mem_append_left _ hq, h2⟩
    · have hm' : m = l := by simpa using hm
      subst hm'
      exact ⟨p, List.mem_append_right _ (by simp), href⟩

/-- C1: for every valid create input, either some transactional step fails and
the whole state is returned unchanged with a storage error (rollback), or the
transaction commits and the new Post and its "new_post" ActivityLog
(referencing the new Post's id) appear together; consequently the
posts/creation-logs pairing invariant is preserved by every create. -/
theorem create_post_transactional (now : Nat) (f : CreateFailure)
    (req : CreateReq) (s : SysState) (hT : req.title ≠ "") (hC : req.content ≠ "") :
    ((anyCreateFailure f = true) →
      ∃ msg, createPost now f req s = (.serverError msg, s)) ∧
    ((anyCreateFailure f = false) →
      createPost now f req s =
        ( .createdPost ⟨s.db.nextPostId, req.title, req.content, req.tags, now, now⟩,
          { db := { posts := s.db.posts
                      ++ [⟨s.db.nextPostId, req.title, req.content, req.tags, now, now⟩],
                    logs := s.db.logs
                      ++ [⟨s.db.nextLogId, "new_post", some s.db.nextPostId, now⟩],
                    nextPostId := s.db.nextPostId + 1,
                    nextLogId := s.db.nextLogId + 1 },
            cache := s.cache,
            es := esUpsert s.es ⟨s.db.nextPostId, req.title, req.content, req.tags⟩ } )) ∧
    (newPostPairing s.db → newPostPairing (createPost now f req s).2.db) := by
  have hcond : ¬(req.title = "" ∨ req.content = "") := by
    simp [hT, hC]
  unfold createPost
  rw [if_neg hcond]
  obtain ⟨b1, b2, b3, b4⟩ := f
  cases b1 <;> cases b2 <;> cases b3 <;> cases b4
  · refine ⟨fun hx => by simp [anyCreateFailure] at hx, fun _ => rfl, fun hp => ?_⟩
    exact newPostPairing_insert s.db _ _ rfl rfl hp
  all_goals
    exact ⟨fun _ => ⟨_, rfl⟩,
           fun hx => by simp [anyCreateFailure] at hx,
           fun hp => hp⟩

theorem create_post_transactional_witness :
    createPost 3 ⟨false, false, false, false⟩ ⟨"T", "c", ["api"]⟩ wState =
      ( .createdPost ⟨2, "T", "c", ["api"], 3, 3⟩,
        { db := { posts := wState.db.posts ++ [⟨2, "T", "c", ["api"], 3, 3⟩],
                  logs := wState.db.logs ++ [⟨2, "new_post", some 2, 3⟩],
                  nextPostId := 3, nextLogId := 3 },
          cache := wState.cache,
          es := esUpsert wState.es ⟨2, "T", "c", ["api"]⟩ } ) :=
  (create_post_transactional 3 ⟨false, false, false, false⟩ ⟨"T", "c", ["api"]⟩
    wState (by decide) (by decide)).2.1 rfl

/-- C5: deleting an existing post is transactional: if any step fails the whole
state is returned unchanged with a storage error (rollback); on success, in one
step, every ActivityLog referencing the post id is removed, the post row is
removed, and a single terminal "delete_post" log with a null post reference is
appended — no partially deleted state is ever produced. -/
theorem delete_post_transactional (nowD : Nat) (f : DeleteFailure) (id : Nat)
    (s : SysState) (post : Post) (hfound : findPost s.db.posts id = some post) :
    ((anyDeleteFailure f = true) →
      ∃ msg, deletePostCore nowD f id s = (.serverError msg, s)) ∧
    ((anyDeleteFailure f = false) →
      deletePostCore nowD f id s =
        ( .okDeleted id,
          { db := { posts := s.db.posts.filter (fun p => p.id != id),
                    logs := (s.db.logs.filter (fun l => l.postId != some id))
                              ++ [⟨s.db.nextLogId, "delete_post", none, nowD⟩],
                    nextPostId := s.db.nextPostId,
                    nextLogId := s.db.nextLogId + 1 },
            cache := cacheDel s.cache id,
            es := esDelete s.es id } )) := by
  unfold deletePostCore
  obtain ⟨b1, b2, b3, b4, b5⟩ := f
  cases b1
  · rw [if_neg (by simp : ¬(false = true))]
    rw [hfound]
    cases b2 <;> cases b3 <;> cases b4 <;> cases b5
    · exact ⟨fun hx => by simp [anyDeleteFailure] at hx, fun _ => rfl⟩
    all_goals
      exact ⟨fun _ => ⟨_, rfl⟩, fun hx => by simp [anyDeleteFailure] at hx⟩
  · exact ⟨fun _ => ⟨_, rfl⟩, fun hx => by simp [anyDeleteFailure] at hx⟩

theorem delete_post_transactional_witness :
    deletePostCore 7 ⟨false, false, false, false, false⟩ 1 wState =
      ( .okDeleted 1,
        { db := { posts := wState.db.posts.filter (fun p => p.id != 1),
                  logs := (wState.db.logs.filter (fun l => l.postId != some 1))
                            ++ [⟨2, "delete_post", none, 7⟩],
                  nextPostId := 2, nextLogId := 3 },
          cache := cacheDel wState.cache 1,
          es := esDelete wState.es 1 } ) :=
  (delete_post_transactional 7 ⟨false, false, false, false, false⟩ 1 wState
    wPost rfl).2 rfl

/-- C8: a paginated listing request whose (normalized) page lies beyond the
last page succeeds with an empty list and accurate metadata: `has_next = false`,
the true total count, and total pages computed by ceiling division of the total
count by the effective page size — for the posts listing and the activity-log
listing alike. -/
theorem beyond_last_page_returns_empty (s : SysState) (pq lq : Option AtoiResult) :
    (((s.db.posts.length + parseLimit 10 lq - 1) / parseLimit 10 lq < parsePage pq) →
      (getAllPostsCore pq lq s).1 = .okPosts []
        { currentPage := parsePage pq,
          totalPages := (s.db.posts.length + parseLimit 10 lq - 1) / parseLimit 10 lq,
          totalCount := s.db.posts.length,
          limit := parseLimit 10 lq,
          hasNext := false,
          hasPrev := decide (1 < parsePage pq) }) ∧
    (((s.db.logs.length + parseLimit 20 lq - 1) / parseLimit 20 lq < parsePage pq) →
      (getActivityLogsCore pq lq s).1 = .okLogs []
        { currentPage := parsePage pq,
          totalPages := (s.db.logs.length + parseLimit 20 lq - 1) / parseLimit 20 lq,
          totalCount := s.db.logs.length,
          limit := parseLimit 20 lq,
          hasNext := false,
          hasPrev := decide (1 < parsePage pq) }) := by
  constructor
  · intro h
    have hlim : 0 < parseLimit 10 lq := parseLimit_pos 10 lq (by omega)
    have hempty : ((sortPostsByCreatedDesc s.db.posts).drop
        ((parsePage pq - 1) * parseLimit 10 lq)).take (parseLimit 10 lq) = [] := by
      have hlen : (sortPostsByCreatedDesc s.db.posts).length = s.db.posts.length :=
        List.length_insertionSort _ _
      have h1 : s.db.posts.length ≤
          ((s.db.posts.length + parseLimit 10 lq - 1) / parseLimit 10 lq)
            * parseLimit 10 lq :=
        total_le_ceil_mul _ _ hlim
      have h2 : ((s.db.posts.length + parseLimit 10 lq - 1) / parseLimit 10 lq)
            * parseLimit 10 lq
          ≤ (parsePage pq - 1) * parseLimit 10 lq :=
        Nat.mul_le_mul_right _ (Nat.le_sub_one_of_lt h)
      have hoff : (sortPostsByCreatedDesc s.db.posts).length ≤
          (parsePage pq - 1) * parseLimit 10 lq := by
        rw [hlen]
        exact le_trans h1 h2
      rw [List.drop_eq_nil_of_le hoff, List.take_nil]
    have hnext : decide (parsePage pq <
        (s.db.posts.length + parseLimit 10 lq - 1) / parseLimit 10 lq) = false := by
      rw [decide_eq_false_iff_not, Nat.not_lt]
      exact Nat.le_of_lt h
    simp only [getAllPostsCore]
    rw [hempty, hnext]
  · intro h
    have hlim : 0 < parseLimit 20 lq := parseLimit_pos 20 lq (by omega)
    have hempty : ((sortLogsByLoggedDesc s.db.logs).drop
        ((parsePage pq - 1) * parseLimit 20 lq)).take (parseLimit 20 lq) = [] := by
      have hlen : (sortLogsByLoggedDesc s.db.logs).length = s.db.logs.length :=
        List.length_insertionSort _ _
      have h1 : s.db.logs.length ≤
          ((s.db.logs.length + parseLimit 20 lq - 1) / parseLimit 20 lq)
            * parseLimit 20 lq :=
        total_le_ceil_mul _ _ hlim
      have h2 : ((s.db.logs.length + parseLimit 20 lq - 1) / parseLimit 20 lq)
            * parseLimit 20 lq
          ≤ (parsePage pq - 1) * parseLimit 20 lq :=
        Nat.mul_le_mul_right _ (Nat.le_sub_one_of_lt h)
      have hoff : (sortLogsByLoggedDesc s.db.logs).length ≤
          (parsePage pq - 1) * parseLimit 20 lq := by
        rw [hlen]
        exact le_trans h1 h2
      rw [List.drop_eq_nil_of_le hoff, List.take_nil]
    have hnext : decide (parsePage pq <
        (s.db.logs.length + parseLimit 20 lq - 1) / parseLimit 20 lq) = false := by
      rw [decide_eq_false_iff_not, Nat.not_lt]
      exact Nat.le_of_lt h
    simp only [getActivityLogsCore]
    rw [hempty, hnext]

theorem beyond_last_page_returns_empty_witness :
    (getAllPostsCore (some (.ok 5)) none wState).1 = .okPosts []
        { currentPage := 5, totalPages := 1, totalCount := 1, limit := 10,
          hasNext := false, hasPrev := true } ∧
    (getActivityLogsCore (some (.ok 5)) none wState).1 = .okLogs []
        { currentPage := 5, totalPages := 1, totalCount := 1, limit := 20,
          hasNext := false, hasPrev := true } := by
  have h := beyond_last_page_returns_empty wState (some (.ok 5)) none
  exact ⟨h.1 (by decide), h.2 (by decide)⟩

theorem read_after_update_returns_written_witness :
    (getPostCore false 1
        (updatePostCore 5 false 1 ⟨"B", "", none⟩ wState).2).1
      = .okPost { id := 1, title := "B", content := "x", tags := ["go"],
                  createdAt := 0, updatedAt := 5 } :=
  read_after_update_returns_written 5 false false 1 ⟨"B", "", none⟩ wState
    { id := 1, title := "B", content := "x", tags := ["go"],
      createdAt := 0, updatedAt := 5 }
    (updatePostCore 5 false 1 ⟨"B", "", none⟩ wState).2 rfl

end Blog
